import Mathlib

/-!
Shallow embedding of `src/priv/src/main.rs`, the bridge shim that reads
length-prefixed frames on standard input, accumulates them into a command,
spawns a child on EOT and relays the child's output as frames.

Conventions used throughout this development:

* Rust byte buffers (`Vec<u8>`, `&[u8]`) are `List Nat` whose elements are
  byte values; Rust `String` values are represented by their UTF-8 bytes.
* A Rust panic (index out of bounds, `unwrap`, `expect`, the explicit
  panic in `from_bytes`) is modelled as `none` (or a distinguished
  `panicked` result): the function does not return a value.
* `i32` values are `Int` with explicit two's-complement encoding modulo
  `2 ^ 32` at the points where the code serialises them.
* External effects (process spawning, pipe reads) are parameters of the
  model: an oracle chooses the outcome of each `run` attempt.
-/

/-- Tag constant from the source: `const COMMAND: u8 = 0;`. -/
def COMMAND : Nat := 0

/-- Tag constant from the source: `const ARG: u8 = 1;`. -/
def ARG : Nat := 1

/-- Tag constant from the source: `const STDIN: u8 = 2;`. -/
def STDIN : Nat := 2

/-- Tag constant from the source: `const ENV: u8 = 3;`. -/
def ENV : Nat := 3

/-- Tag constant from the source: `const CURRENT_DIR: u8 = 4;`. -/
def CURRENT_DIR : Nat := 4

/-- Tag constant from the source: `const EOT: u8 = 5;` (renamed to avoid
clashing with the `Message.EOT` constructor inside the `Message`
namespace). -/
def EOT_TAG : Nat := 5

/-- Tag constant from the source: `const ERROR: u8 = 6;`. -/
def ERROR : Nat := 6

/-- Tag constant from the source: `const STDOUT: u8 = 7;`. -/
def STDOUT : Nat := 7

/-- Tag constant from the source: `const STDERR: u8 = 8;`. -/
def STDERR : Nat := 8

/-- Tag constant from the source: `const EXIT_STATUS: u8 = 9;`. -/
def EXIT_STATUS : Nat := 9

/-- Big-endian interpretation of a byte list; on four bytes this is
`u32::from_be_bytes`. -/
def fromBE32 (l : List Nat) : Nat :=
  l.foldl (fun acc b => acc * 256 + b) 0

/-- Big-endian bytes of `n` as a `u32`; this is `u32::to_be_bytes` (the
caller is responsible for the `as u32` wrap-around). -/
def u32be (n : Nat) : List Nat :=
  [n / 2 ^ 24 % 256, n / 2 ^ 16 % 256, n / 2 ^ 8 % 256, n % 256]

/-- Reading a `u32` bit pattern as an `i32`, two's complement. -/
def asI32 (n : Nat) : Int :=
  if n < 2 ^ 31 then (n : Int) else (n : Int) - 2 ^ 32

/-- Two's-complement big-endian bytes of an `i32` value; this is
`i32::to_be_bytes`. -/
def i32be (c : Int) : List Nat :=
  u32be ((c % 2 ^ 32).toNat)

/-- A UTF-8 continuation byte (`0x80 ..= 0xBF`). -/
def utf8Cont (b : Nat) : Prop :=
  128 ≤ b ∧ b ≤ 191

instance (b : Nat) : Decidable (utf8Cont b) := by
  unfold utf8Cont; infer_instance

/-- Validity of a byte sequence as UTF-8, exactly the condition under which
`std::str::from_utf8` succeeds (well-formed sequence lengths, no overlong
encodings, no surrogates, maximum scalar value `0x10FFFF`). -/
def utf8Valid : List Nat → Bool
  | [] => true
  | b :: rest =>
    if b < 128 then utf8Valid rest
    else if 194 ≤ b ∧ b ≤ 223 then
      match rest with
      | b1 :: rest1 => utf8Cont b1 && utf8Valid rest1
      | [] => false
    else if b = 224 then
      match rest with
      | b1 :: b2 :: rest2 =>
        decide (160 ≤ b1 ∧ b1 ≤ 191) && utf8Cont b2 && utf8Valid rest2
      | _ => false
    else if 225 ≤ b ∧ b ≤ 236 then
      match rest with
      | b1 :: b2 :: rest2 => utf8Cont b1 && utf8Cont b2 && utf8Valid rest2
      | _ => false
    else if b = 237 then
      match rest with
      | b1 :: b2 :: rest2 =>
        decide (128 ≤ b1 ∧ b1 ≤ 159) && utf8Cont b2 && utf8Valid rest2
      | _ => false
    else if 238 ≤ b ∧ b ≤ 239 then
      match rest with
      | b1 :: b2 :: rest2 => utf8Cont b1 && utf8Cont b2 && utf8Valid rest2
      | _ => false
    else if b = 240 then
      match rest with
      | b1 :: b2 :: b3 :: rest3 =>
        decide (144 ≤ b1 ∧ b1 ≤ 191) && utf8Cont b2 && utf8Cont b3 &&
          utf8Valid rest3
      | _ => false
    else if 241 ≤ b ∧ b ≤ 243 then
      match rest with
      | b1 :: b2 :: b3 :: rest3 =>
        utf8Cont b1 && utf8Cont b2 && utf8Cont b3 && utf8Valid rest3
      | _ => false
    else if b = 244 then
      match rest with
      | b1 :: b2 :: b3 :: rest3 =>
        decide (128 ≤ b1 ∧ b1 ≤ 143) && utf8Cont b2 && utf8Cont b3 &&
          utf8Valid rest3
      | _ => false
    else false

/-- The `Message` enum of the source. String payloads are carried as their
UTF-8 bytes. -/
inductive Message
  | Command (s : List Nat)
  | Arg (s : List Nat)
  | Stdin (b : List Nat)
  | Env (name value : List Nat)
  | CurrentDir (s : List Nat)
  | Error (s : List Nat)
  | ExitStatus (code : Int)
  | Stdout (b : List Nat)
  | Stderr (b : List Nat)
  | EOT
deriving DecidableEq, Repr

/-- `Message::from_bytes`. The argument is the frame body (the bytes after
the length prefix). `none` models a panic: the unconditional `bytes[0]`
index, the `unwrap()` on `str::from_utf8`, the out-of-range slices
`bytes[1..5]` and `bytes[5..name_end]` in the `ENV` arm, and the explicit
panic on an unexpected message type. -/
def Message.from_bytes (bytes : List Nat) : Option Message :=
  match bytes with
  | [] => none
  | tag :: rest =>
    if tag = COMMAND then
      if utf8Valid rest then some (.Command rest) else none
    else if tag = ARG then
      if utf8Valid rest then some (.Arg rest) else none
    else if tag = STDIN then
      some (.Stdin rest)
    else if tag = ENV then
      if 4 ≤ rest.length then
        let name_length := fromBE32 (rest.take 4)
        if 4 + name_length ≤ rest.length then
          let name := (rest.drop 4).take name_length
          let value := (rest.drop 4).drop name_length
          if utf8Valid name && utf8Valid value then
            some (.Env name value)
          else none
        else none
      else none
    else if tag = CURRENT_DIR then
      if utf8Valid rest then some (.CurrentDir rest) else none
    else if tag = EOT_TAG then
      some .EOT
    else none

/-- `Message::to_vec`: the length prefix (`(1 + bytes.len()) as u32`, big
endian), then the tag byte, then the payload. -/
def Message.to_vec (message_type : Nat) (bytes : List Nat) : List Nat :=
  u32be ((1 + bytes.length) % 2 ^ 32) ++ message_type :: bytes

/-- `Message::to_bytes`. `none` models the explicit panic for every variant
other than `Error`, `Stdout`, `Stderr` and `ExitStatus`; in particular
encoding `Message::EOT` panics. -/
def Message.to_bytes : Message → Option (List Nat)
  | .Error message => some (Message.to_vec ERROR message)
  | .Stdout buffer => some (Message.to_vec STDOUT buffer)
  | .Stderr buffer => some (Message.to_vec STDERR buffer)
  | .ExitStatus code => some (Message.to_vec EXIT_STATUS (i32be code))
  | _ => none

/-- Result of one `Message::read_from_erlang` call. `eof` models the
`io::Result` error from a failed `read_exact` (stream closed or short);
`panicked` models a panic inside `from_bytes`. -/
inductive ReadResult
  | eof
  | panicked
  | msg (m : Message) (rest : List Nat)
deriving DecidableEq, Repr

/-- `Message::read_from_erlang` on an explicit input stream: read a 4-byte
big-endian length, read that many bytes, decode them with `from_bytes`,
and return the undecoded remainder of the stream. -/
def Message.read_from_erlang (input : List Nat) : ReadResult :=
  if 4 ≤ input.length then
    if fromBE32 (input.take 4) ≤ (input.drop 4).length then
      match Message.from_bytes ((input.drop 4).take (fromBE32 (input.take 4))) with
      | some m => .msg m ((input.drop 4).drop (fromBE32 (input.take 4)))
      | none => .panicked
    else .eof
  else .eof

/-- One `read_until(b'\x0a', ..)` call of `stream_to_erlang`: take bytes up
to and including the first newline (or the whole remainder at end of
stream), returning the chunk and the rest. -/
def takeChunk : List Nat → List Nat × List Nat
  | [] => ([], [])
  | b :: rest =>
    if b = 10 then ([b], rest)
    else
      let r := takeChunk rest
      (b :: r.1, r.2)

/-- Fuel-indexed chunking loop of `Message::stream_to_erlang`: repeatedly
`read_until` newline, stopping at end of stream. The fuel is an upper bound
on the number of chunks; `length input` always suffices. -/
def splitChunksF : Nat → List Nat → List (List Nat)
  | 0, _ => []
  | _, [] => []
  | fuel + 1, input =>
    let r := takeChunk input
    r.1 :: splitChunksF fuel r.2

/-- `Message::stream_to_erlang` on an explicit pipe content: the sequence
of newline-delimited chunks handed to the `write_all` callback. -/
def Message.stream_to_erlang (input : List Nat) : List (List Nat) :=
  splitChunksF input.length input

/-- The `Sendable` impl for `io::Result<process::ExitStatus>` (the
child-exit reporter): an exit status with a numeric code becomes an
`ExitStatus` message, one without a code (killed by a signal) produces
nothing, an error becomes an `Error` message. -/
def sendExitResult : Except (List Nat) (Option Int) → List Message
  | .ok (some code) => [.ExitStatus code]
  | .ok none => []
  | .error e => [.Error e]

/-- The `Command` accumulator struct of the source. `envs` is the
`HashMap<String, String>`, modelled as an association list whose `insert`
replaces the value of an existing key. -/
structure Command where
  command : Option (List Nat)
  args : List (List Nat)
  stdin : Option (List Nat)
  envs : List (List Nat × List Nat)
  current_dir : Option (List Nat)
deriving DecidableEq, Repr

/-- `HashMap::insert`: upsert by key. -/
def envsInsert : List (List Nat × List Nat) → List Nat → List Nat →
    List (List Nat × List Nat)
  | [], n, v => [(n, v)]
  | (k, w) :: rest, n, v =>
    if k = n then (n, v) :: rest else (k, w) :: envsInsert rest n v

/-- `HashMap` lookup by key. -/
def envLookup : List (List Nat × List Nat) → List Nat → Option (List Nat)
  | [], _ => none
  | (k, w) :: rest, n => if k = n then some w else envLookup rest n

/-- `Command::new()`. -/
def Command.new : Command :=
  { command := none, args := [], stdin := none, envs := [], current_dir := none }

/-- `Command::add`: `Command` overwrites the program, `Arg` appends, `Stdin`
overwrites, `Env` upserts by name, `CurrentDir` overwrites, and every other
variant (including `EOT` and the outbound-only variants) is ignored by the
catch-all arm. -/
def Command.add (s : Command) (message : Message) : Command :=
  match message with
  | .Command command => { s with command := some command }
  | .Arg arg => { s with args := s.args ++ [arg] }
  | .Stdin stdin => { s with stdin := some stdin }
  | .Env name value => { s with envs := envsInsert s.envs name value }
  | .CurrentDir current_dir => { s with current_dir := some current_dir }
  | _ => s

/-- Outcome of the externally visible effects of one `Command::run` call,
chosen by an oracle: either some step failed before the exit-waiter thread
was spawned (`fail e spawned`, where `spawned` records whether
`command.spawn()` itself had already succeeded — e.g. a stdin write
failure happens after the child exists), or everything up to spawning the
exit-waiter thread succeeded (`ok`, which implies the child exists). -/
inductive RunRes
  | fail (e : List Nat) (spawned : Bool)
  | ok

/-- `Command::run`, up to its externally chosen effects. `none` models the
`expect("Rambo requires a command!")` panic when no `Command` message ever
arrived. Otherwise the result is the returned `io::Result<()>` together
with whether a child was spawned and whether the exit-waiter thread (the
only code that signals the condition variable) was started. -/
def Command.run (s : Command) (r : RunRes) :
    Option (Except (List Nat) Unit × Bool × Bool) :=
  match s.command with
  | none => none
  | some _ =>
    match r with
    | .fail e spawned => some (.error e, spawned, false)
    | .ok => some (.ok (), true, true)

/-- Observable state of one execution of `main`'s read loop: the
accumulator, how many `run` calls were made, how many children were
spawned, how many exit-waiter threads were started, the program used for
each spawn, and the messages the main thread itself wrote to standard
output (`command.run(..).send_to_erlang()` writes an `Error` frame exactly
when `run` returned `Err`). -/
structure LoopState where
  cmd : Command
  attempts : Nat
  spawns : Nat
  waiters : Nat
  launched : List (List Nat)
  out : List Message
deriving Repr

/-- The state of `main` before its read loop. -/
def LoopState.init : LoopState :=
  { cmd := Command.new, attempts := 0, spawns := 0, waiters := 0,
    launched := [], out := [] }

/-- One iteration of `main`'s read loop on a successfully decoded message:
`EOT` calls `command.run(..).send_to_erlang()`, every other message is
passed to `command.add`. `none` propagates a panic out of `run`. -/
def mainStep (oracle : Nat → RunRes) (st : LoopState) (m : Message) :
    Option LoopState :=
  match m with
  | .EOT =>
    match Command.run st.cmd (oracle st.attempts) with
    | none => none
    | some (res, spawned, waiter) =>
      some { st with
        attempts := st.attempts + 1
        spawns := st.spawns + (if spawned then 1 else 0)
        waiters := st.waiters + (if waiter then 1 else 0)
        launched := st.launched ++
          (if spawned then [st.cmd.command.getD []] else [])
        out := st.out ++
          (match res with | .error e => [.Error e] | .ok _ => []) }
  | m => some { st with cmd := st.cmd.add m }

/-- `main`'s read loop over the successfully decoded inbound messages (the
loop ends when `read_from_erlang` returns an error, i.e. at inbound EOF).
`none` propagates a panic. -/
def mainLoop (oracle : Nat → RunRes) (msgs : List Message) :
    Option LoopState :=
  msgs.foldlM (mainStep oracle) LoopState.init

/-- One iteration of the exit-waiter thread's loop (`child.try_wait()`
polling), given the current value of the `kill` flag and the `try_wait`
outcome: a still-running child (`ok none`) is killed exactly when the
flag is set; an exited child or an error reports through `sendExitResult`
and leaves the loop. The result is (messages written, whether
`child.kill()` was called, whether the loop breaks). -/
def waiterStep (kill : Bool)
    (tryWait : Except (List Nat) (Option (Option Int))) :
    List Message × Bool × Bool :=
  match tryWait with
  | .ok none => ([], kill, false)
  | .ok (some status) => (sendExitResult (.ok status), false, true)
  | .error e => (sendExitResult (.error e), false, true)

/-- State of the condition-variable handshake after the read loop: how many
exit-waiter threads have yet to run their final block (which sets `exited`
and notifies), and the current value of `exited`. -/
structure WaitWorld where
  waiters : Nat
  exited : Bool

/-- A step of the handshake: the only write of `exited` in the program is
the final block of an exit-waiter thread. -/
inductive WaitStep : WaitWorld → WaitWorld → Prop
  | signal (w : WaitWorld) (h : 0 < w.waiters) :
      WaitStep w { waiters := w.waiters - 1, exited := true }

/-- `main`'s final `condvar.wait` loop can terminate from `w`: some state
with `exited = true` is reachable. -/
def mainCanExit (w : WaitWorld) : Prop :=
  ∃ v, Relation.ReflTransGen WaitStep w v ∧ v.exited = true

/-- Modelled from the spec: the parent-side decoder for outbound frames.
The receiving end of the outbound channel is not part of `src/`; this
definition follows the spec's wire shape (4-byte big-endian length equal
to 1 plus the payload size, a 1-byte tag, then the payload; the
`ExitStatus` payload is a 4-byte big-endian signed integer; string fields
must be valid text). -/
def decodeOutbound (frame : List Nat) : Option Message :=
  match frame with
  | l1 :: l2 :: l3 :: l4 :: tag :: payload =>
    if fromBE32 [l1, l2, l3, l4] = 1 + payload.length then
      if tag = ERROR then
        if utf8Valid payload then some (.Error payload) else none
      else if tag = STDOUT then some (.Stdout payload)
      else if tag = STDERR then some (.Stderr payload)
      else if tag = EXIT_STATUS then
        match payload with
        | [b1, b2, b3, b4] => some (.ExitStatus (asI32 (fromBE32 [b1, b2, b3, b4])))
        | _ => none
      else if tag = EOT_TAG then
        if payload = [] then some .EOT else none
      else none
    else none
  | _ => none

/-- Tag byte that `to_bytes` uses for each variant (for inbound-only
variants this is the tag `from_bytes` recognises; `to_bytes` itself
panics on those). -/
def tagOf : Message → Nat
  | .Command _ => COMMAND
  | .Arg _ => ARG
  | .Stdin _ => STDIN
  | .Env _ _ => ENV
  | .CurrentDir _ => CURRENT_DIR
  | .Error _ => ERROR
  | .Stdout _ => STDOUT
  | .Stderr _ => STDERR
  | .ExitStatus _ => EXIT_STATUS
  | .EOT => EOT_TAG

/-- Payload that `to_bytes` serialises for each outbound variant (empty for
the variants `to_bytes` panics on). -/
def payloadOf : Message → List Nat
  | .Error s => s
  | .Stdout b => b
  | .Stderr b => b
  | .ExitStatus c => i32be c
  | _ => []


/-! ### Helper lemmas -/

theorem fromBE32_u32be (n : Nat) (h : n < 2 ^ 32) : fromBE32 (u32be n) = n := by
  simp only [fromBE32, u32be, List.foldl]
  omega

theorem asI32_emod (c : Int) (h1 : -(2 ^ 31) ≤ c) (h2 : c < 2 ^ 31) :
    asI32 ((c % 2 ^ 32).toNat) = c := by
  unfold asI32
  split_ifs <;> omega

theorem emod_toNat_lt (c : Int) : (c % 2 ^ 32).toNat < 2 ^ 32 := by
  omega

theorem takeChunk_append (l : List Nat) :
    (takeChunk l).1 ++ (takeChunk l).2 = l := by
  induction l with
  | nil => rfl
  | cons b rest ih =>
    simp only [takeChunk]
    split
    · rfl
    · simpa using ih

theorem takeChunk_ne_nil (b : Nat) (rest : List Nat) :
    (takeChunk (b :: rest)).1 ≠ [] := by
  simp only [takeChunk]
  split <;> simp

theorem splitChunksF_join (fuel : Nat) :
    ∀ l : List Nat, l.length ≤ fuel → (splitChunksF fuel l).flatten = l := by
  induction fuel with
  | zero =>
    intro l hl
    have : l = [] := by
      cases l with
      | nil => rfl
      | cons a l => simp at hl
    subst this; rfl
  | succ fuel ih =>
    intro l hl
    cases l with
    | nil => rfl
    | cons b rest =>
      simp only [splitChunksF, List.flatten]
      have happ := takeChunk_append (b :: rest)
      have hne := takeChunk_ne_nil b rest
      have hlen : (takeChunk (b :: rest)).2.length ≤ fuel := by
        have h1 : (takeChunk (b :: rest)).1.length +
            (takeChunk (b :: rest)).2.length = rest.length + 1 := by
          have := congrArg List.length happ
          simpa using this
        have h2 : 0 < (takeChunk (b :: rest)).1.length :=
          List.length_pos.mpr hne
        simp only [List.length_cons] at hl
        omega
      rw [ih _ hlen, happ]

theorem stream_to_erlang_join (input : List Nat) :
    (Message.stream_to_erlang input).flatten = input :=
  splitChunksF_join input.length input le_rfl

theorem envLookup_envsInsert (l : List (List Nat × List Nat))
    (n v : List Nat) : envLookup (envsInsert l n v) n = some v := by
  induction l with
  | nil => simp [envsInsert, envLookup]
  | cons kv rest ih =>
    obtain ⟨k, w⟩ := kv
    simp only [envsInsert]
    split
    · simp [envLookup]
    · simp [envLookup, *]

/-! ### Claim C1 -/

/-- Claim C1, counterexample: on the malformed Env frame body
`[3, 0, 0, 0, 10]` (tag `ENV`, declared name-length 10, actual remaining
payload 0 bytes) `from_bytes` panics (`none` — the slice
`bytes[5..name_end]` is out of range). It does not return a recoverable
ProtocolError value: the code has no such error channel, so the claim that
decode "fails with a ProtocolError (a recoverable error value, not a
crash)" is false at this input. -/
theorem c1_counterexample : Message.from_bytes [3, 0, 0, 0, 10] = none := by
  decide

/-- Claim C1 (amended): for every inbound byte sequence, decode panics
(crashes the process) rather than returning any value when the tag is
unrecognized, when the declared Env name-length does not fit the actual
payload, or when any string field — the Command, Arg or CurrentDir body,
or the Env name or value — is not valid UTF-8; in particular a malformed
Env frame never produces a partially-built Message — it panics. -/
theorem c1_decode_panics :
    (∀ t rest, 6 ≤ t → Message.from_bytes (t :: rest) = none) ∧
    (∀ rest : List Nat, rest.length < 4 →
      Message.from_bytes (ENV :: rest) = none) ∧
    (∀ rest : List Nat, 4 ≤ rest.length →
      rest.length < 4 + fromBE32 (rest.take 4) →
      Message.from_bytes (ENV :: rest) = none) ∧
    (∀ rest, utf8Valid rest = false →
      Message.from_bytes (COMMAND :: rest) = none) ∧
    (∀ rest, utf8Valid rest = false →
      Message.from_bytes (ARG :: rest) = none) ∧
    (∀ rest, utf8Valid rest = false →
      Message.from_bytes (CURRENT_DIR :: rest) = none) ∧
    (∀ rest : List Nat, 4 ≤ rest.length →
      4 + fromBE32 (rest.take 4) ≤ rest.length →
      (utf8Valid ((rest.drop 4).take (fromBE32 (rest.take 4))) = false ∨
       utf8Valid ((rest.drop 4).drop (fromBE32 (rest.take 4))) = false) →
      Message.from_bytes (ENV :: rest) = none) := by
  refine ⟨?_, ?_, ?_, ?_, ?_, ?_, ?_⟩
  · intro t rest ht
    simp only [Message.from_bytes, COMMAND, ARG, STDIN, ENV, CURRENT_DIR,
      EOT_TAG]
    split_ifs <;> first | rfl | omega
  · intro rest hlt
    simp only [Message.from_bytes, COMMAND, ARG, STDIN, ENV, CURRENT_DIR,
      EOT_TAG]
    split_ifs <;> first | rfl | omega | simp_all
  · intro rest hge hlt
    simp only [Message.from_bytes, COMMAND, ARG, STDIN, ENV, CURRENT_DIR,
      EOT_TAG]
    split_ifs <;> first | rfl | omega | simp_all
  · intro rest hbad
    simp only [Message.from_bytes, COMMAND, ARG, STDIN, ENV, CURRENT_DIR,
      EOT_TAG]
    split_ifs <;> first | rfl | omega | simp_all
  · intro rest hbad
    simp only [Message.from_bytes, COMMAND, ARG, STDIN, ENV, CURRENT_DIR,
      EOT_TAG]
    split_ifs <;> first | rfl | omega | simp_all
  · intro rest hbad
    simp only [Message.from_bytes, COMMAND, ARG, STDIN, ENV, CURRENT_DIR,
      EOT_TAG]
    split_ifs <;> first | rfl | omega | simp_all
  · intro rest hge hfit hbad
    simp only [Message.from_bytes, COMMAND, ARG, STDIN, ENV, CURRENT_DIR,
      EOT_TAG]
    split_ifs
    all_goals first | rfl | omega | simp_all

/-- Witness for `c1_decode_panics` at concrete inputs: unknown tag 9, an
Env body shorter than its name-length header, an Env body whose declared
name-length 9 exceeds the single remaining payload byte, Command, Arg and
CurrentDir bodies that are not valid UTF-8, and a well-sized Env body
whose one-byte name is not valid UTF-8. -/
theorem c1_decode_panics_witness :
    Message.from_bytes [9, 104] = none ∧
    Message.from_bytes [3, 0, 0] = none ∧
    Message.from_bytes [3, 0, 0, 0, 9, 65] = none ∧
    Message.from_bytes [0, 255] = none ∧
    Message.from_bytes [1, 255] = none ∧
    Message.from_bytes [4, 255] = none ∧
    Message.from_bytes [3, 0, 0, 0, 1, 255, 97] = none :=
  ⟨c1_decode_panics.1 9 [104] (by omega),
   c1_decode_panics.2.1 [0, 0] (by decide),
   c1_decode_panics.2.2.1 [0, 0, 0, 9, 65] (by decide) (by decide),
   c1_decode_panics.2.2.2.1 [255] (by decide),
   c1_decode_panics.2.2.2.2.1 [255] (by decide),
   c1_decode_panics.2.2.2.2.2.1 [255] (by decide),
   c1_decode_panics.2.2.2.2.2.2 [0, 0, 0, 1, 255, 97] (by decide) (by decide)
     (Or.inl (by decide))⟩

/-! ### Claim C10 -/

/-- Claim C10: decoding is not total on frame bodies — `from_bytes` of the
empty body indexes `bytes[0]` unconditionally and panics (`none`), and an
inbound frame with declared length zero makes `read_from_erlang` hand the
empty buffer to `from_bytes`, so the read panics rather than yielding any
Message or error value. -/
theorem c10_empty_body_panics :
    Message.from_bytes [] = none ∧
    ∀ rest, Message.read_from_erlang (0 :: 0 :: 0 :: 0 :: rest) =
      ReadResult.panicked := by
  refine ⟨rfl, fun rest => ?_⟩
  simp only [Message.read_from_erlang]
  rw [if_pos (by simp : (4 : Nat) ≤ (0 :: 0 :: 0 :: 0 :: rest : List Nat).length)]
  rw [if_pos]
  · rfl
  · exact Nat.zero_le rest.length

/-! ### Claim C3 -/

/-- Claim C3, counterexample: after a child exits with code 0, the exit
reporter emits exactly `[ExitStatus 0]` and no `Eot` message; moreover
this program cannot encode `Message.EOT` at all (`to_bytes` panics on it),
so the claim that the outbound exchange "is then terminated by an Eot
message" is false. -/
theorem c3_counterexample :
    sendExitResult (Except.ok (some 0)) = [Message.ExitStatus 0] ∧
    Message.EOT ∉ sendExitResult (Except.ok (some 0)) ∧
    Message.to_bytes Message.EOT = none :=
  ⟨rfl, by decide, rfl⟩

/-- Claim C3 (amended): on the normal path after the child terminates an
`ExitStatus(code)` message is emitted if and only if the child exposed a
numeric exit code (a child killed by an external signal yields no
`ExitStatus` message), but no `Eot` message follows: the exit reporter
never emits `Eot`, and encoding `Eot` panics. -/
theorem c3_exit_report :
    (∀ c, sendExitResult (.ok (some c)) = [Message.ExitStatus c]) ∧
    sendExitResult (.ok none) = [] ∧
    (∀ e, sendExitResult (.error e) = [Message.Error e]) ∧
    (∀ r, Message.EOT ∉ sendExitResult r) ∧
    Message.to_bytes Message.EOT = none := by
  refine ⟨fun c => rfl, rfl, fun e => rfl, ?_, rfl⟩
  intro r
  cases r with
  | error e => simp [sendExitResult]
  | ok s =>
    cases s with
    | none => simp [sendExitResult]
    | some c => simp [sendExitResult]

/-! ### Claim C6 -/

/-- Claim C6, counterexample: with the kill flag already set (the state
after inbound EOF), one iteration of the exit-waiter loop in which
`try_wait` reports that the child exited with code 0 still emits
`ExitStatus 0` — so "no ExitStatus frame is ever emitted after that
point" is false: emission is not gated on the flag. -/
theorem c6_counterexample :
    waiterStep true (Except.ok (some (some 0))) =
      ([Message.ExitStatus 0], false, true) := rfl

/-- Claim C6 (amended): after inbound EOF the kill flag is set and the
exit waiter kills a child it still sees running, and a child terminated
without a numeric code (killed by the signal) yields no message; but
suppression of later frames is not guaranteed — a child that exits with a
numeric code still has `ExitStatus` emitted after EOF, and the
stdout/stderr relays are not connected to the flag at all: they emit
every chunk of whatever is still buffered in the pipe (the chunks
concatenate back to the full pipe content, nothing is suppressed). -/
theorem c6_post_eof :
    waiterStep true (Except.ok none) = ([], true, false) ∧
    (∀ k, waiterStep k (Except.ok (some none)) = ([], false, true)) ∧
    (∀ c, waiterStep true (Except.ok (some (some c))) =
      ([Message.ExitStatus c], false, true)) ∧
    (∀ input, (Message.stream_to_erlang input).flatten = input) :=
  ⟨rfl, fun _ => rfl, fun _ => rfl, stream_to_erlang_join⟩

/-! ### Claim C7 -/

/-- Claim C7: last write wins — a second `Command` message overwrites the
first and the second value is the program used at launch, and an `Env`
message whose name was already seen replaces that name's value. -/
theorem c7_last_write_wins :
    (∀ (s : Command) a b,
      ((s.add (Message.Command a)).add (Message.Command b)).command = some b) ∧
    (∀ (s : Command) n v1 v2,
      envLookup (((s.add (Message.Env n v1)).add (Message.Env n v2)).envs) n
        = some v2) ∧
    (∀ a b, (mainLoop (fun _ => RunRes.ok)
        [Message.Command a, Message.Command b, Message.EOT]).map
        LoopState.launched = some [b]) := by
  refine ⟨fun s a b => rfl, fun s n v1 v2 => ?_, fun a b => rfl⟩
  exact envLookup_envsInsert (envsInsert s.envs n v1) n v2

/-! ### Claims C4, C5, C9: the read loop -/

theorem add_command_eq (s : Command) (m : Message)
    (h : ∀ x, m ≠ Message.Command x) : (s.add m).command = s.command := by
  cases m <;> first | exact absurd rfl (h _) | rfl

theorem foldl_no_command_eot_none (oracle : Nat → RunRes) :
    ∀ (msgs : List Message) (st : LoopState), st.cmd.command = none →
      (∀ x, Message.Command x ∉ msgs) → Message.EOT ∈ msgs →
      List.foldlM (mainStep oracle) st msgs = none := by
  intro msgs
  induction msgs with
  | nil =>
    intro st _ _ hmem
    simp at hmem
  | cons m rest ih =>
    intro st hnone hnc hmem
    rw [List.foldlM_cons]
    by_cases hm : m = Message.EOT
    · subst hm
      have hstep : mainStep oracle st Message.EOT = none := by
        simp [mainStep, Command.run, hnone]
      rw [hstep]
      rfl
    · have hstep : mainStep oracle st m =
          some { st with cmd := st.cmd.add m } := by
        cases m <;> simp_all [mainStep]
      rw [hstep]
      have hcmd : (st.cmd.add m).command = none := by
        rw [add_command_eq st.cmd m
          (fun x hx => absurd (hx ▸ List.mem_cons_self m rest) (hnc x))]
        exact hnone
      have hmem' : Message.EOT ∈ rest := by
        rcases List.mem_cons.mp hmem with h | h
        · exact absurd h.symm hm
        · exact h
      exact ih { st with cmd := st.cmd.add m } hcmd
        (fun x hx => hnc x (List.mem_cons_of_mem m hx)) hmem'

theorem foldl_no_eot_waiters (oracle : Nat → RunRes) :
    ∀ (msgs : List Message) (st st' : LoopState), Message.EOT ∉ msgs →
      List.foldlM (mainStep oracle) st msgs = some st' →
      st'.waiters = st.waiters := by
  intro msgs
  induction msgs with
  | nil =>
    intro st st' _ h
    simp only [List.foldlM_nil] at h
    cases h
    rfl
  | cons m rest ih =>
    intro st st' hno hfold
    have hm : m ≠ Message.EOT :=
      fun he => hno (he ▸ List.mem_cons_self m rest)
    have hstep : mainStep oracle st m =
        some { st with cmd := st.cmd.add m } := by
      cases m <;> simp_all [mainStep]
    rw [List.foldlM_cons, hstep] at hfold
    exact ih { st with cmd := st.cmd.add m } st'
      (fun hmem => hno (List.mem_cons_of_mem m hmem)) hfold

theorem waitworld_no_exit :
    ∀ v, Relation.ReflTransGen WaitStep { waiters := 0, exited := false } v →
      v = { waiters := 0, exited := false } := by
  intro v h
  induction h with
  | refl => rfl
  | tail hab hbc ih =>
    rw [ih] at hbc
    cases hbc with
    | signal hw => simp at hw

/-- Claim C4, counterexample: an `Eot` with no preceding `Command` makes
`Command::run` panic on `expect("Rambo requires a command!")` — the whole
loop crashes (`none`); no `Error` message and no `Eot` is ever written to
the parent, so "reported to the parent as exactly one Error(description)
message followed by Eot" is false. -/
theorem c4_counterexample :
    mainLoop (fun _ => RunRes.ok) [Message.EOT] = none := rfl

/-- Claim C4 (amended): if `Eot` is received before any `Command` message
ever set the program, `run` panics with "Rambo requires a command!" — a
crash, not a reported error: nothing is written to the parent. A
`LaunchError` (spawn failure) is reported as a single `Error` message,
with no `Eot` following it (this program never emits `Eot`). -/
theorem c4_missing_command :
    (∀ (oracle : Nat → RunRes) (msgs : List Message),
      (∀ x, Message.Command x ∉ msgs) → Message.EOT ∈ msgs →
      mainLoop oracle msgs = none) ∧
    (∀ c e, (mainLoop (fun _ => RunRes.fail e false)
        [Message.Command c, Message.EOT]).map LoopState.out =
      some [Message.Error e]) := by
  refine ⟨?_, fun c e => rfl⟩
  intro oracle msgs hnc hmem
  exact foldl_no_command_eot_none oracle msgs LoopState.init rfl hnc hmem

/-- Witness for `c4_missing_command` at a concrete input: a session that
sends one `Arg` and then `Eot` crashes. -/
theorem c4_missing_command_witness :
    mainLoop (fun _ => RunRes.ok) [Message.Arg [], Message.EOT] = none :=
  c4_missing_command.1 (fun _ => RunRes.ok) [Message.Arg [], Message.EOT]
    (by simp) (by simp)

/-- Claim C5, counterexample: the read loop does not stop after launching;
a session whose inbound stream is `Command "a", Eot, Eot` spawns two
children, so "at most one child process is ever spawned" is false. -/
theorem c5_counterexample :
    (mainLoop (fun _ => RunRes.ok)
      [Message.Command [97], Message.EOT, Message.EOT]).map LoopState.spawns =
    some 2 := rfl

/-- Claim C5 (amended): single-shot execution is not enforced. Every `Eot`
frame triggers another `run`: after a launch the loop keeps reading, a
later `Command` frame still mutates the accumulator (it is not rejected as
a protocol violation), and a later `Eot` spawns a second child with the
new program. -/
theorem c5_not_single_shot (a b : List Nat) :
    mainLoop (fun _ => RunRes.ok)
      [Message.Command a, Message.EOT, Message.Command b, Message.EOT] =
    some { cmd := { command := some b, args := [], stdin := none, envs := [],
                    current_dir := none },
           attempts := 2, spawns := 2, waiters := 2, launched := [a, b],
           out := [] } := rfl

/-- Claim C9: after inbound EOF, `main` blocks on the condition variable
until an exit-waiter thread signals it — the final wait can terminate if
and only if at least one exit-waiter thread was started; and if the
inbound stream contained no `Eot` at all, no waiter exists, so the process
blocks forever. -/
theorem c9_block_on_condvar (oracle : Nat → RunRes) (msgs : List Message)
    (st : LoopState) (h : mainLoop oracle msgs = some st) :
    (Message.EOT ∉ msgs → st.waiters = 0) ∧
    (mainCanExit { waiters := st.waiters, exited := false } ↔
      0 < st.waiters) := by
  constructor
  · intro hno
    exact foldl_no_eot_waiters oracle msgs LoopState.init st hno h
  · constructor
    · intro hc
      by_contra h0
      have hz : st.waiters = 0 := by omega
      obtain ⟨v, hreach, hex⟩ := hc
      rw [hz] at hreach
      rw [waitworld_no_exit v hreach] at hex
      simp at hex
    · intro hpos
      exact ⟨{ waiters := st.waiters - 1, exited := true },
        Relation.ReflTransGen.single (WaitStep.signal _ hpos), rfl⟩

/-- Witness for `c9_block_on_condvar`: a session that received a single
`Arg` and then hit EOF has no exit-waiter thread, and `main` can never
leave the condition-variable wait. -/
theorem c9_block_on_condvar_witness :
    ¬ mainCanExit { waiters := 0, exited := false } := by
  intro hc
  have h := (c9_block_on_condvar (fun _ => RunRes.ok) [Message.Arg []]
    { cmd := { command := none, args := [[]], stdin := none, envs := [],
               current_dir := none },
      attempts := 0, spawns := 0, waiters := 0, launched := [], out := [] }
    rfl).2
  exact absurd (h.mp hc) (by decide)

/-! ### Claims C2, C8: the wire format -/

theorem take4_u32be_append (x : Nat) (l : List Nat) :
    (u32be x ++ l).take 4 = u32be x := rfl

theorem decodeOutbound_to_vec (t : Nat) (p : List Nat)
    (hp : 1 + p.length < 2 ^ 32) :
    decodeOutbound (Message.to_vec t p) =
      (if t = ERROR then
        (if utf8Valid p then some (.Error p) else none)
       else if t = STDOUT then some (.Stdout p)
       else if t = STDERR then some (.Stderr p)
       else if t = EXIT_STATUS then
         (match p with
          | [b1, b2, b3, b4] =>
            some (.ExitStatus (asI32 (fromBE32 [b1, b2, b3, b4])))
          | _ => none)
       else if t = EOT_TAG then (if p = [] then some .EOT else none)
       else none) := by
  have hmod : (1 + p.length) % 2 ^ 32 = 1 + p.length := Nat.mod_eq_of_lt hp
  have hcond : fromBE32 (u32be ((1 + p.length) % 2 ^ 32)) = 1 + p.length := by
    rw [fromBE32_u32be _ (Nat.mod_lt _ (by norm_num)), hmod]
  simp only [u32be] at hcond
  simp only [Message.to_vec, u32be, List.cons_append, List.nil_append,
    decodeOutbound]
  rw [if_pos hcond]

/-- Claim C2, counterexample: `encode (Stdout [104])` is the frame
`[0,0,0,2,7,104]`, but feeding that frame back through the program's own
reader panics: `from_bytes` does not recognise any outbound tag. Moreover
`encode Message.EOT` itself panics. So `decode (encode m) = m` fails for
every outbound-kind message. -/
theorem c2_counterexample :
    Message.to_bytes (Message.Stdout [104]) = some [0, 0, 0, 2, 7, 104] ∧
    Message.read_from_erlang [0, 0, 0, 2, 7, 104] = ReadResult.panicked ∧
    Message.to_bytes Message.EOT = none := by
  refine ⟨by decide, by decide, rfl⟩

/-- Claim C2 (amended): the encoding of an outbound message is lossless,
but the decoder that recovers it is the parent's (spec-modelled
`decodeOutbound`), not this program's `from_bytes`: for `Error`, `Stdout`,
`Stderr` and `ExitStatus` (with an `i32`-ranged code, a valid-UTF-8 error
text, and a payload below the `u32` length limit),
`decodeOutbound (encode m) = m`; `Eot` is excluded because `to_bytes`
panics on it. -/
theorem c2_roundtrip :
    (∀ s b, utf8Valid s = true → s.length + 1 < 2 ^ 32 →
      Message.to_bytes (.Error s) = some b →
      decodeOutbound b = some (.Error s)) ∧
    (∀ p b, p.length + 1 < 2 ^ 32 →
      Message.to_bytes (.Stdout p) = some b →
      decodeOutbound b = some (.Stdout p)) ∧
    (∀ p b, p.length + 1 < 2 ^ 32 →
      Message.to_bytes (.Stderr p) = some b →
      decodeOutbound b = some (.Stderr p)) ∧
    (∀ (c : Int) b, -(2 ^ 31) ≤ c → c < 2 ^ 31 →
      Message.to_bytes (.ExitStatus c) = some b →
      decodeOutbound b = some (.ExitStatus c)) ∧
    Message.to_bytes Message.EOT = none := by
  refine ⟨?_, ?_, ?_, ?_, rfl⟩
  · intro s b hu hlen hb
    simp only [Message.to_bytes, Option.some.injEq] at hb
    subst hb
    rw [decodeOutbound_to_vec ERROR s (by omega)]
    simp [hu]
  · intro p b hlen hb
    simp only [Message.to_bytes, Option.some.injEq] at hb
    subst hb
    rw [decodeOutbound_to_vec STDOUT p (by omega)]
    simp [STDOUT, ERROR]
  · intro p b hlen hb
    simp only [Message.to_bytes, Option.some.injEq] at hb
    subst hb
    rw [decodeOutbound_to_vec STDERR p (by omega)]
    simp [STDERR, ERROR, STDOUT]
  · intro c b h1 h2 hb
    simp only [Message.to_bytes, Option.some.injEq] at hb
    subst hb
    have hk : (c % 2 ^ 32).toNat < 2 ^ 32 := emod_toNat_lt c
    have h3 : fromBE32 (u32be ((c % 2 ^ 32).toNat)) = (c % 2 ^ 32).toNat :=
      fromBE32_u32be _ hk
    have h4 : asI32 ((c % 2 ^ 32).toNat) = c := asI32_emod c h1 h2
    rw [decodeOutbound_to_vec EXIT_STATUS (i32be c)
      (by norm_num [i32be, u32be])]
    simp only [EXIT_STATUS, ERROR, STDOUT, STDERR, EOT_TAG]
    norm_num
    simp only [i32be, u32be] at h3 ⊢
    rw [h3, h4]

/-- Witness for `c2_roundtrip`: the encoded `ExitStatus (-1)` frame decodes
back to `ExitStatus (-1)` under the spec-modelled parent decoder. -/
theorem c2_roundtrip_witness :
    decodeOutbound [0, 0, 0, 5, 9, 255, 255, 255, 255] =
      some (Message.ExitStatus (-1)) :=
  c2_roundtrip.2.2.2.1 (-1) [0, 0, 0, 5, 9, 255, 255, 255, 255]
    (by decide) (by decide) (by decide)

/-- Claim C8: every frame `to_bytes` produces is the 4-byte big-endian
length field (equal to 1 plus the payload size, given that this sum fits a
`u32`), then the 1-byte tag, then the payload; and the `ExitStatus`
payload is the exit code as a 4-byte big-endian two's-complement signed
integer — decoding those 4 bytes back as a signed value recovers the
code. -/
theorem c8_wire_shape (m : Message) (b : List Nat)
    (hb : Message.to_bytes m = some b) (hlen : b.length - 4 < 2 ^ 32) :
    b = u32be (1 + (payloadOf m).length) ++ tagOf m :: payloadOf m ∧
    fromBE32 (b.take 4) = 1 + (payloadOf m).length ∧
    (∀ c, m = Message.ExitStatus c → -(2 ^ 31) ≤ c → c < 2 ^ 31 →
      payloadOf m = u32be ((c % 2 ^ 32).toNat) ∧
      asI32 (fromBE32 (payloadOf m)) = c) := by
  cases m with
  | Error s =>
    simp only [Message.to_bytes, Option.some.injEq] at hb
    subst hb
    have hfit : 1 + s.length < 2 ^ 32 := by
      simp [Message.to_vec, u32be] at hlen
      omega
    have hmod : (1 + s.length) % 2 ^ 32 = 1 + s.length := Nat.mod_eq_of_lt hfit
    refine ⟨?_, ?_, ?_⟩
    · simp only [Message.to_vec, payloadOf, tagOf]
      rw [hmod]
    · rw [Message.to_vec, take4_u32be_append,
        fromBE32_u32be _ (Nat.mod_lt _ (by norm_num)), hmod]
      rfl
    · intro c hc
      simp at hc
  | Stdout p =>
    simp only [Message.to_bytes, Option.some.injEq] at hb
    subst hb
    have hfit : 1 + p.length < 2 ^ 32 := by
      simp [Message.to_vec, u32be] at hlen
      omega
    have hmod : (1 + p.length) % 2 ^ 32 = 1 + p.length := Nat.mod_eq_of_lt hfit
    refine ⟨?_, ?_, ?_⟩
    · simp only [Message.to_vec, payloadOf, tagOf]
      rw [hmod]
    · rw [Message.to_vec, take4_u32be_append,
        fromBE32_u32be _ (Nat.mod_lt _ (by norm_num)), hmod]
      rfl
    · intro c hc
      simp at hc
  | Stderr p =>
    simp only [Message.to_bytes, Option.some.injEq] at hb
    subst hb
    have hfit : 1 + p.length < 2 ^ 32 := by
      simp [Message.to_vec, u32be] at hlen
      omega
    have hmod : (1 + p.length) % 2 ^ 32 = 1 + p.length := Nat.mod_eq_of_lt hfit
    refine ⟨?_, ?_, ?_⟩
    · simp only [Message.to_vec, payloadOf, tagOf]
      rw [hmod]
    · rw [Message.to_vec, take4_u32be_append,
        fromBE32_u32be _ (Nat.mod_lt _ (by norm_num)), hmod]
      rfl
    · intro c hc
      simp at hc
  | ExitStatus c0 =>
    simp only [Message.to_bytes, Option.some.injEq] at hb
    subst hb
    have hfit : 1 + (i32be c0).length < 2 ^ 32 := by norm_num [i32be, u32be]
    have hmod : (1 + (i32be c0).length) % 2 ^ 32 = 1 + (i32be c0).length :=
      Nat.mod_eq_of_lt hfit
    refine ⟨?_, ?_, ?_⟩
    · simp only [Message.to_vec, payloadOf, tagOf]
      rw [hmod]
    · rw [Message.to_vec, take4_u32be_append,
        fromBE32_u32be _ (Nat.mod_lt _ (by norm_num)), hmod]
      rfl
    · intro c hc h1 h2
      have hcc : c0 = c := by
        injection hc
      subst hcc
      refine ⟨rfl, ?_⟩
      simp only [payloadOf, i32be]
      rw [fromBE32_u32be _ (emod_toNat_lt c0), asI32_emod c0 h1 h2]
  | Command s => simp [Message.to_bytes] at hb
  | Arg s => simp [Message.to_bytes] at hb
  | Stdin s => simp [Message.to_bytes] at hb
  | Env n v => simp [Message.to_bytes] at hb
  | CurrentDir s => simp [Message.to_bytes] at hb
  | EOT => simp [Message.to_bytes] at hb

/-- Witness for `c8_wire_shape` at the concrete frame for
`ExitStatus (-1)`: the length field reads back as 5 and the payload reads
back as the signed value −1. -/
theorem c8_wire_shape_witness :
    fromBE32 (([0, 0, 0, 5, 9, 255, 255, 255, 255] : List Nat).take 4) =
      1 + (payloadOf (Message.ExitStatus (-1))).length ∧
    asI32 (fromBE32 (payloadOf (Message.ExitStatus (-1)))) = -1 :=
  ⟨(c8_wire_shape (Message.ExitStatus (-1)) [0, 0, 0, 5, 9, 255, 255, 255, 255]
      (by decide) (by decide)).2.1,
   ((c8_wire_shape (Message.ExitStatus (-1)) [0, 0, 0, 5, 9, 255, 255, 255, 255]
      (by decide) (by decide)).2.2 (-1) rfl (by decide) (by decide)).2⟩
